import Mathlib

/-!
Shallow embedding of the AiMissionPlanner trajectory pipeline
(src/cpp/trajectory_metrics.{h,cpp}, src/cpp/trajectory_inference.{h,cpp}).

Modelling conventions:
* C++ `float` values are modelled as real numbers (`ℝ`); the literal `1e-6f`
  is modelled by the decimal it denotes.  `std::sqrt` is `Real.sqrt`,
  `std::acos` is `Real.arccos`.
* An IEEE NaN produced by an unguarded `0/0` division is modelled by `none`
  in an `Option ℝ` result; NaN propagation through `+=` corresponds to
  `Option` propagation.
* `std::vector<Waypoint>` is `List Waypoint`; `size_t` loop counters become
  structural recursion over the list.
-/

noncomputable section

/-- 3D waypoint, from `struct Waypoint` in trajectory_inference.h
(fields x, y, z; default constructor zero-initialises). -/
@[ext]
structure Waypoint where
  x : ℝ
  y : ℝ
  z : ℝ

/-- `Waypoint()` default constructor: (0, 0, 0). -/
def wp0 : Waypoint := ⟨0, 0, 0⟩

/-- `using Trajectory = std::vector<Waypoint>`. -/
abbrev Trajectory := List Waypoint

/-- Euclidean distance between two waypoints, the
`std::sqrt(dx*dx + dy*dy + dz*dz)` pattern used throughout both .cpp files. -/
def wpDist (p q : Waypoint) : ℝ :=
  Real.sqrt ((q.x - p.x) ^ 2 + (q.y - p.y) ^ 2 + (q.z - p.z) ^ 2)

/-- The epsilon guard threshold `1e-6f` used by both source files. -/
def eps6 : ℝ := 1 / 1000000

/-- Sum of consecutive-waypoint distances: the accumulation loop shared by
`computePathLength` (both files) and `computeAverageVelocity`. -/
def consecDistSum : List Waypoint → ℝ
  | p :: q :: rest => wpDist p q + consecDistSum (q :: rest)
  | _ => 0

/-- Window of interior points: the `for (i = 1; i < size - 1; ++i)` loop
visiting `(p[i-1], p[i], p[i+1])` in both curvature implementations. -/
def triples : List Waypoint → List (Waypoint × Waypoint × Waypoint)
  | a :: b :: c :: rest => (a, b, c) :: triples (b :: c :: rest)
  | _ => []

/-- Per-interior-point curvature step shared verbatim by
trajectory_metrics.cpp (computeCurvatures) and trajectory_inference.cpp
(computeAverageCurvature): both compute v1, v2, their norms, skip the point
unless both norms exceed 1e-6, clamp the cosine to [-1,1], and return
`acos(cos)/norm1`. -/
def curvatureTriple : Waypoint × Waypoint × Waypoint → Option ℝ :=
  fun t =>
    let pp := t.1
    let pc := t.2.1
    let pn := t.2.2
    let norm1 := wpDist pp pc
    let norm2 := wpDist pc pn
    if norm1 > eps6 ∧ norm2 > eps6 then
      let dot := (pc.x - pp.x) * (pn.x - pc.x) + (pc.y - pp.y) * (pn.y - pc.y) +
        (pc.z - pp.z) * (pn.z - pc.z)
      let cos_angle := dot / (norm1 * norm2)
      let clamped := max (-1) (min 1 cos_angle)
      some (Real.arccos clamped / norm1)
    else none

namespace TrajMetrics

/-- trajectory_metrics.cpp `computePathLength` (lines 14-31). -/
def computePathLength (t : Trajectory) : ℝ :=
  if t.length < 2 then 0 else consecDistSum t

/-- trajectory_metrics.cpp `computeStraightLineDistance` (lines 33-44). -/
def computeStraightLineDistance (t : Trajectory) : ℝ :=
  if t.length < 2 then 0 else wpDist (t.headD wp0) (t.getLastD wp0)

/-- trajectory_metrics.cpp `computePathEfficiency` (lines 46-55). -/
def computePathEfficiency (t : Trajectory) : ℝ :=
  if t.length < 2 then 1
  else
    let straight_line := computeStraightLineDistance t
    let path_length := computePathLength t
    if path_length < eps6 then 0 else straight_line / path_length

/-- trajectory_metrics.cpp `computeCurvatures` (lines 57-97). -/
def computeCurvatures (t : Trajectory) : List ℝ :=
  if t.length < 3 then [] else (triples t).filterMap curvatureTriple

/-- trajectory_metrics.cpp `computeAverageCurvature` (lines 99-106). -/
def computeAverageCurvature (t : Trajectory) : ℝ :=
  let curvatures := computeCurvatures t
  if curvatures = [] then 0 else curvatures.sum / curvatures.length

/-- trajectory_metrics.cpp `computeMaxCurvature` (lines 108-114),
`*std::max_element` over the nonempty curvature list. -/
def computeMaxCurvature (t : Trajectory) : ℝ :=
  match computeCurvatures t with
  | [] => 0
  | k :: ks => ks.foldl max k

/-- trajectory_metrics.cpp `computeSmoothnessScore` (lines 116-119). -/
def computeSmoothnessScore (t : Trajectory) : ℝ :=
  1 / (1 + computeAverageCurvature t)

/-- trajectory_metrics.cpp `computeEndpointError` (lines 121-132). -/
def computeEndpointError (t : Trajectory) (expected_end : Waypoint) : ℝ :=
  match t with
  | [] => 0
  | w :: rest => wpDist ((w :: rest).getLastD wp0) expected_end

/-- trajectory_metrics.cpp `computeAverageVelocity` (lines 134-151): the same
consecutive-distance sum as path length, divided by `size() - 1`. -/
def computeAverageVelocity (t : Trajectory) : ℝ :=
  if t.length < 2 then 0 else consecDistSum t / ((t.length - 1 : ℕ) : ℝ)

end TrajMetrics

/-- trajectory_metrics.h `struct TrajectoryMetrics` (lines 28-48):
eleven float fields. -/
structure TrajectoryMetrics where
  path_length : ℝ
  straight_line_distance : ℝ
  path_efficiency : ℝ
  avg_curvature : ℝ
  max_curvature : ℝ
  smoothness_score : ℝ
  endpoint_error : ℝ
  min_altitude : ℝ
  max_altitude : ℝ
  avg_altitude : ℝ
  avg_velocity : ℝ

/-- `TrajectoryMetrics()` default constructor (header lines 41-47):
every field 0.0f. -/
def defaultMetrics : TrajectoryMetrics :=
  ⟨0, 0, 0, 0, 0, 0, 0, 0, 0, 0, 0⟩

namespace TrajMetrics

/-- trajectory_metrics.cpp `evaluateTrajectory` (lines 174-210): returns the
default-constructed bundle for an empty trajectory, otherwise fills every
field; the altitude loop starts from `trajectory[0].z` and folds min/max/sum
over all waypoints. -/
def evaluateTrajectory (t : Trajectory) (expected_end : Waypoint) :
    TrajectoryMetrics :=
  match t with
  | [] => defaultMetrics
  | w :: rest =>
      { path_length := computePathLength (w :: rest)
        straight_line_distance := computeStraightLineDistance (w :: rest)
        path_efficiency := computePathEfficiency (w :: rest)
        avg_curvature := computeAverageCurvature (w :: rest)
        max_curvature := computeMaxCurvature (w :: rest)
        smoothness_score := computeSmoothnessScore (w :: rest)
        endpoint_error := computeEndpointError (w :: rest) expected_end
        min_altitude := (w :: rest).foldl (fun m q => min m q.z) w.z
        max_altitude := (w :: rest).foldl (fun m q => max m q.z) w.z
        avg_altitude := ((w :: rest).map Waypoint.z).sum / (w :: rest).length
        avg_velocity := computeAverageVelocity (w :: rest) }

end TrajMetrics

namespace TrajInference

/-- trajectory_inference.cpp `computePathLength` (lines 268-280): the same
consecutive-distance accumulation, written as `for (i = 1; i < size; ++i)`
with no explicit short-trajectory guard. -/
def computePathLength (t : Trajectory) : ℝ := consecDistSum t

/-- trajectory_inference.cpp `computeAverageCurvature` (lines 282-316):
early-returns 0 for fewer than 3 points, then runs the identical per-point
curvature loop and averages, returning 0 if no point qualified. -/
def computeAverageCurvature (t : Trajectory) : ℝ :=
  if t.length < 3 then 0
  else
    let curvatures := (triples t).filterMap curvatureTriple
    if curvatures = [] then 0 else curvatures.sum / curvatures.length

/-- trajectory_inference.cpp `computeSmoothnessScore` (lines 318-321). -/
def computeSmoothnessScore (t : Trajectory) : ℝ :=
  1 / (1 + computeAverageCurvature t)

end TrajInference

/-- For a trajectory with fewer than 2 points the consecutive-distance sum
is empty. -/
theorem consecDistSum_short (t : Trajectory) (h : t.length < 2) :
    consecDistSum t = 0 := by
  match t with
  | [] => rfl
  | [p] => rfl
  | p :: q :: rest => exact absurd h (by simp)

/-- C10: the utility functions `computePathLength` and
`computeAverageCurvature` of trajectory_inference.cpp agree with the
functions of the same names in trajectory_metrics.cpp on every trajectory,
and hence the two `computeSmoothnessScore` definitions also agree. -/
theorem inference_metrics_equiv (t : Trajectory) :
    TrajInference.computePathLength t = TrajMetrics.computePathLength t ∧
    TrajInference.computeAverageCurvature t =
      TrajMetrics.computeAverageCurvature t ∧
    TrajInference.computeSmoothnessScore t =
      TrajMetrics.computeSmoothnessScore t := by
  have hlen : TrajInference.computePathLength t =
      TrajMetrics.computePathLength t := by
    unfold TrajInference.computePathLength TrajMetrics.computePathLength
    by_cases h : t.length < 2
    · rw [if_pos h, consecDistSum_short t h]
    · rw [if_neg h]
  have hcurv : TrajInference.computeAverageCurvature t =
      TrajMetrics.computeAverageCurvature t := by
    unfold TrajInference.computeAverageCurvature
      TrajMetrics.computeAverageCurvature TrajMetrics.computeCurvatures
    by_cases h : t.length < 3
    · rw [if_pos h, if_pos h, if_pos rfl]
    · rw [if_neg h, if_neg h]
  refine ⟨hlen, hcurv, ?_⟩
  unfold TrajInference.computeSmoothnessScore TrajMetrics.computeSmoothnessScore
  rw [hcurv]

/-- A `std::array<float, 3>` of coordinates. -/
@[ext]
structure Vec3 where
  v0 : ℝ
  v1 : ℝ
  v2 : ℝ

/-- trajectory_inference.h `struct NormalizationParams` (lines 38-44). -/
@[ext]
structure NormalizationParams where
  mean : Vec3
  std : Vec3

/-- `NormalizationParams()` default constructor: mean {0,0,0}, std {1,1,1}. -/
def defaultNormParams : NormalizationParams := ⟨⟨0, 0, 0⟩, ⟨1, 1, 1⟩⟩

namespace TrajectoryGenerator

/-- trajectory_inference.cpp `TrajectoryGenerator::normalize` (lines 131-137). -/
def normalize (p : NormalizationParams) (wp : Waypoint) : Vec3 :=
  ⟨(wp.x - p.mean.v0) / p.std.v0,
   (wp.y - p.mean.v1) / p.std.v1,
   (wp.z - p.mean.v2) / p.std.v2⟩

/-- trajectory_inference.cpp `TrajectoryGenerator::denormalize`
(lines 139-145). -/
def denormalize (p : NormalizationParams) (v : Vec3) : Waypoint :=
  ⟨v.v0 * p.std.v0 + p.mean.v0,
   v.v1 * p.std.v1 + p.mean.v1,
   v.v2 * p.std.v2 + p.mean.v2⟩

end TrajectoryGenerator

/-- C2: for every waypoint and every normalization-parameter pair whose std
components are all nonzero, `denormalize (normalize wp)` recovers `wp`
exactly, and in particular each coordinate differs from the original by at
most the 1e-5 tolerance. -/
theorem normalize_denormalize_roundtrip (p : NormalizationParams)
    (wp : Waypoint) (h0 : p.std.v0 ≠ 0) (h1 : p.std.v1 ≠ 0)
    (h2 : p.std.v2 ≠ 0) :
    TrajectoryGenerator.denormalize p (TrajectoryGenerator.normalize p wp) =
      wp ∧
    |(TrajectoryGenerator.denormalize p
        (TrajectoryGenerator.normalize p wp)).x - wp.x| ≤ 1 / 100000 ∧
    |(TrajectoryGenerator.denormalize p
        (TrajectoryGenerator.normalize p wp)).y - wp.y| ≤ 1 / 100000 ∧
    |(TrajectoryGenerator.denormalize p
        (TrajectoryGenerator.normalize p wp)).z - wp.z| ≤ 1 / 100000 := by
  have hx : (TrajectoryGenerator.denormalize p
      (TrajectoryGenerator.normalize p wp)).x = wp.x := by
    simp only [TrajectoryGenerator.denormalize, TrajectoryGenerator.normalize]
    field_simp
  have hy : (TrajectoryGenerator.denormalize p
      (TrajectoryGenerator.normalize p wp)).y = wp.y := by
    simp only [TrajectoryGenerator.denormalize, TrajectoryGenerator.normalize]
    field_simp
  have hz : (TrajectoryGenerator.denormalize p
      (TrajectoryGenerator.normalize p wp)).z = wp.z := by
    simp only [TrajectoryGenerator.denormalize, TrajectoryGenerator.normalize]
    field_simp
  refine ⟨Waypoint.ext hx hy hz, ?_, ?_, ?_⟩ <;>
    simp only [hx, hy, hz, sub_self, abs_zero] <;> norm_num

/-- Witness for C2 at mean (4,5,6), std (2,2,2), waypoint (1,2,3). -/
theorem normalize_denormalize_roundtrip_witness :
    TrajectoryGenerator.denormalize ⟨⟨4, 5, 6⟩, ⟨2, 2, 2⟩⟩
      (TrajectoryGenerator.normalize ⟨⟨4, 5, 6⟩, ⟨2, 2, 2⟩⟩ ⟨1, 2, 3⟩) =
      ⟨1, 2, 3⟩ :=
  (normalize_denormalize_roundtrip ⟨⟨4, 5, 6⟩, ⟨2, 2, 2⟩⟩ ⟨1, 2, 3⟩
    (by norm_num) (by norm_num) (by norm_num)).1

/-- Result of the two `std::regex_search` calls in `parseNormalizationJSON`
(trajectory_inference.cpp lines 33-59): for each of the `"mean"` and `"std"`
keys, either the regex does not match (`none`) or it captures a bracketed
group whose comma-separated tokens parse via `std::stof` to this list of
numbers. -/
structure NormDoc where
  mean_match : Option (List ℝ)
  std_match : Option (List ℝ)

/-- The `while (std::getline(iss, token, ',') && idx < 3)` loop: overwrite
the first `min 3 vals.length` components of the default array with the
parsed tokens, leaving the rest at their previous values. -/
def writeUpTo3 (dflt : Vec3) (vals : List ℝ) : Vec3 :=
  match vals with
  | [] => dflt
  | [a] => ⟨a, dflt.v1, dflt.v2⟩
  | [a, b] => ⟨a, b, dflt.v2⟩
  | a :: b :: c :: _ => ⟨a, b, c⟩

/-- trajectory_inference.cpp `parseNormalizationJSON` (lines 22-62): an
unreadable file (`none`) throws (`Except.error`); otherwise the params start
from the default constructor and each of the two regex matches, when
present, overwrites up to 3 components of its field.  An absent field is
silently left at its default.  The file I/O and regex machinery of the C++
standard library is modelled by its extracted result (`NormDoc`). -/
def parseNormalizationJSON : Option NormDoc → Except Unit NormalizationParams
  | none => .error ()
  | some doc =>
    let p1 := defaultNormParams
    let p2 := match doc.mean_match with
      | some vs => { p1 with mean := writeUpTo3 p1.mean vs }
      | none => p1
    let p3 := match doc.std_match with
      | some vs => { p2 with std := writeUpTo3 p2.std vs }
      | none => p2
    .ok p3

/-- trajectory_inference.cpp `TrajectoryGenerator::loadNormalization`
(lines 114-129): on parse success stores the params and returns true; on a
thrown exception leaves the stored params unchanged and returns false. -/
def loadNormalization (current : NormalizationParams) (file : Option NormDoc) :
    Bool × NormalizationParams :=
  match parseNormalizationJSON file with
  | .ok p => (true, p)
  | .error _ => (false, current)

/-- C4 counterexample: a readable document whose `std` field is absent does
NOT report a configuration error — loading succeeds (returns true) with the
`mean` field parsed and the `std` field silently left at its default
{1,1,1}, exactly the half-populated state the claim rules out. -/
theorem loadNormalization_half_populated_counterexample :
    (loadNormalization defaultNormParams
      (some ⟨some [10, 20, 30], none⟩)).1 = true ∧
    (loadNormalization defaultNormParams
      (some ⟨some [10, 20, 30], none⟩)).2.mean = ⟨10, 20, 30⟩ ∧
    (loadNormalization defaultNormParams
      (some ⟨some [10, 20, 30], none⟩)).2.std = ⟨1, 1, 1⟩ :=
  ⟨rfl, rfl, rfl⟩

/-- C4 amended: when the source is unreadable, loading reports failure
(returns false) and leaves the stored params unchanged; but when the source
is readable and a field is absent, loading reports success (returns true)
with the absent field silently left at its constructor default (mean
{0,0,0} or std {1,1,1}) — the half-populated fallback happens inside
loading, not by the caller's explicit decision. -/
theorem loadNormalization_amended (current : NormalizationParams)
    (doc : NormDoc) :
    loadNormalization current none = (false, current) ∧
    (loadNormalization current (some doc)).1 = true ∧
    (doc.mean_match = none →
      (loadNormalization current (some doc)).2.mean = ⟨0, 0, 0⟩) ∧
    (doc.std_match = none →
      (loadNormalization current (some doc)).2.std = ⟨1, 1, 1⟩) := by
  obtain ⟨m, s⟩ := doc
  refine ⟨rfl, ?_, ?_, ?_⟩ <;>
    simp only [loadNormalization, parseNormalizationJSON] <;>
    cases m <;> cases s <;> simp [defaultNormParams]

/-- Witness for C4's amended theorem at a document missing its std field. -/
theorem loadNormalization_amended_witness :
    (loadNormalization defaultNormParams
      (some ⟨some [7, 8, 9], none⟩)).2.std = ⟨1, 1, 1⟩ :=
  (loadNormalization_amended defaultNormParams ⟨some [7, 8, 9], none⟩).2.2.2 rfl

namespace TrajMetrics

/-- The quality score computed inside `rankTrajectories`
(trajectory_metrics.cpp lines 290-294):
`w1*efficiency + w2*smoothness - w3*(endpoint_error/100)`. -/
def qualityScore (w1 w2 w3 : ℝ) (m : TrajectoryMetrics) : ℝ :=
  w1 * m.path_efficiency + w2 * m.smoothness_score -
    w3 * (m.endpoint_error / 100)

/-- Score of one candidate: `rankTrajectories` evaluates the full metrics
bundle of the candidate and applies the weighted formula. -/
def scoreOf (e : Waypoint) (w1 w2 w3 : ℝ) (t : Trajectory) : ℝ :=
  qualityScore w1 w2 w3 (evaluateTrajectory t e)

/-- The `scores` vector built by the first loop of `rankTrajectories`
(lines 285-297): one `(score, index)` pair per candidate, in index order. -/
def scorePairs (ts : List Trajectory) (e : Waypoint) (w1 w2 w3 : ℝ) :
    List (ℝ × ℕ) :=
  (List.range ts.length).map fun i => (scoreOf e w1 w2 w3 (ts.getD i []), i)

/-- Postcondition of `std::sort(scores, [](a, b){ return a.first > b.first; })`
on the score list: every earlier element's score is at least every later
element's score (the consecutive `is_sorted` guarantee extended through
transitivity of `≤`). -/
def SortedDescFst (l : List (ℝ × ℕ)) : Prop :=
  l.Pairwise fun a b => b.1 ≤ a.1

/-- Relational model of `rankTrajectories` (trajectory_metrics.cpp lines
282-309): `out` is a possible return value iff it is the second-projection
of some rearrangement of the score pairs permitted by the `std::sort`
contract — a permutation of the pairs that is sorted by descending score.
`std::sort` is not stable, so the relative order of equal-score pairs is
unspecified and the model is a relation, not a function. -/
def RankResult (ts : List Trajectory) (e : Waypoint) (w1 w2 w3 : ℝ)
    (out : List ℕ) : Prop :=
  ∃ sorted_pairs : List (ℝ × ℕ),
    sorted_pairs.Perm (scorePairs ts e w1 w2 w3) ∧
    SortedDescFst sorted_pairs ∧
    out = sorted_pairs.map Prod.snd

end TrajMetrics

/-- C1 counterexample: ties are NOT broken deterministically by ascending
original index.  For two identical candidates (hence equal scores), the
output [1, 0] satisfies the `std::sort` contract modelled by `RankResult`
(it is a descending-sorted permutation of the score pairs) yet lists the
tied indices in descending order, so the tie-break clause of the claim
fails. -/
theorem rankTrajectories_tiebreak_counterexample :
    TrajMetrics.RankResult [[wp0], [wp0]] wp0 (3 / 10) (1 / 2) (1 / 5)
      [1, 0] ∧
    ¬ List.Pairwise (fun i j =>
        TrajMetrics.scoreOf wp0 (3 / 10) (1 / 2) (1 / 5)
          (([[wp0], [wp0]] : List Trajectory).getD i []) =
        TrajMetrics.scoreOf wp0 (3 / 10) (1 / 2) (1 / 5)
          (([[wp0], [wp0]] : List Trajectory).getD j []) → i < j)
      [1, 0] := by
  constructor
  · refine ⟨[(TrajMetrics.scoreOf wp0 (3 / 10) (1 / 2) (1 / 5) [wp0], 1),
      (TrajMetrics.scoreOf wp0 (3 / 10) (1 / 2) (1 / 5) [wp0], 0)],
      ?_, ?_, rfl⟩
    · have hsp : TrajMetrics.scorePairs [[wp0], [wp0]] wp0
          (3 / 10) (1 / 2) (1 / 5) =
          [(TrajMetrics.scoreOf wp0 (3 / 10) (1 / 2) (1 / 5) [wp0], 0),
           (TrajMetrics.scoreOf wp0 (3 / 10) (1 / 2) (1 / 5) [wp0], 1)] := rfl
      rw [hsp]
      exact List.Perm.swap _ _ _
    · unfold TrajMetrics.SortedDescFst
      refine List.pairwise_cons.mpr ⟨?_, List.pairwise_singleton _ _⟩
      intro b hb
      rw [List.mem_singleton] at hb
      subst hb
      exact le_refl _
  · intro h
    have h10 := (List.pairwise_cons.mp h).1 0 (List.mem_singleton.mpr rfl)
    exact absurd (h10 rfl) (by omega)

/-- C1 amended: every output permitted by the modelled `rankTrajectories`
contract is a permutation of the indices `0..n-1` in which earlier indices
have scores (under the weighted formula) at least as large as later ones;
the order among equal-score candidates is left unspecified by `std::sort`. -/
theorem rankTrajectories_sorted_perm (ts : List Trajectory) (e : Waypoint)
    (w1 w2 w3 : ℝ) (out : List ℕ)
    (h : TrajMetrics.RankResult ts e w1 w2 w3 out) :
    out.Perm (List.range ts.length) ∧
    out.Pairwise fun i j =>
      TrajMetrics.scoreOf e w1 w2 w3 (ts.getD j []) ≤
      TrajMetrics.scoreOf e w1 w2 w3 (ts.getD i []) := by
  obtain ⟨sp, hperm, hsort, rfl⟩ := h
  have hsnd : (TrajMetrics.scorePairs ts e w1 w2 w3).map Prod.snd =
      List.range ts.length := by
    unfold TrajMetrics.scorePairs
    rw [List.map_map]
    exact List.map_id'' (fun i => rfl) _
  have hmem : ∀ p ∈ sp,
      p.1 = TrajMetrics.scoreOf e w1 w2 w3 (ts.getD p.2 []) := by
    intro p hp
    have hp2 : p ∈ TrajMetrics.scorePairs ts e w1 w2 w3 :=
      hperm.mem_iff.mp hp
    unfold TrajMetrics.scorePairs at hp2
    rw [List.mem_map] at hp2
    obtain ⟨i, _, rfl⟩ := hp2
    rfl
  constructor
  · rw [← hsnd]
    exact hperm.map Prod.snd
  · rw [List.pairwise_map]
    refine hsort.imp_of_mem ?_
    intro a b ha hb hab
    rw [hmem a ha, hmem b hb] at hab
    exact hab

/-- Witness for C1's amended theorem: two candidates with distinct scores
(a single waypoint matching the expected end, and an empty trajectory whose
default metrics score 0) are ranked [0, 1]. -/
theorem rankTrajectories_sorted_perm_witness :
    ([0, 1] : List ℕ).Perm
      (List.range ([[wp0], ([] : Trajectory)] : List Trajectory).length) := by
  have hscore0 : TrajMetrics.scoreOf wp0 (3 / 10) (1 / 2) (1 / 5) [wp0] =
      4 / 5 := by
    have heff : TrajMetrics.computePathEfficiency [wp0] = 1 := rfl
    have hcurv : TrajMetrics.computeAverageCurvature [wp0] = 0 := rfl
    have hsmooth : TrajMetrics.computeSmoothnessScore [wp0] = 1 := by
      unfold TrajMetrics.computeSmoothnessScore
      rw [hcurv]
      norm_num
    have herr : TrajMetrics.computeEndpointError [wp0] wp0 = 0 := by
      unfold TrajMetrics.computeEndpointError wpDist
      simp
    unfold TrajMetrics.scoreOf TrajMetrics.qualityScore
      TrajMetrics.evaluateTrajectory
    simp only [heff, hsmooth, herr]
    norm_num
  have hscore1 : TrajMetrics.scoreOf wp0 (3 / 10) (1 / 2) (1 / 5)
      ([] : Trajectory) = 0 := by
    unfold TrajMetrics.scoreOf TrajMetrics.qualityScore
      TrajMetrics.evaluateTrajectory defaultMetrics
    norm_num
  refine (rankTrajectories_sorted_perm [[wp0], ([] : Trajectory)] wp0
    (3 / 10) (1 / 2) (1 / 5) [0, 1] ?_).1
  refine ⟨TrajMetrics.scorePairs [[wp0], ([] : Trajectory)] wp0
    (3 / 10) (1 / 2) (1 / 5), List.Perm.refl _, ?_, rfl⟩
  unfold TrajMetrics.SortedDescFst
  have hsp : TrajMetrics.scorePairs [[wp0], ([] : Trajectory)] wp0
      (3 / 10) (1 / 2) (1 / 5) =
      [(TrajMetrics.scoreOf wp0 (3 / 10) (1 / 2) (1 / 5) [wp0], 0),
       (TrajMetrics.scoreOf wp0 (3 / 10) (1 / 2) (1 / 5)
         ([] : Trajectory), 1)] := rfl
  rw [hsp]
  refine List.pairwise_cons.mpr ⟨?_, List.pairwise_singleton _ _⟩
  intro b hb
  rw [List.mem_singleton] at hb
  subst hb
  rw [hscore0, hscore1]
  norm_num

/-- A point of a perfectly straight (affinely parameterized) trajectory:
`a + t * d` componentwise. -/
def linePoint (a d : Waypoint) (t : ℝ) : Waypoint :=
  ⟨a.x + t * d.x, a.y + t * d.y, a.z + t * d.z⟩

/-- Euclidean norm of a direction. -/
def dirNorm (d : Waypoint) : ℝ := Real.sqrt (d.x ^ 2 + d.y ^ 2 + d.z ^ 2)

/-- Distance between two points of the same line scales with the parameter
difference. -/
theorem wpDist_linePoint (a d : Waypoint) (s t : ℝ) :
    wpDist (linePoint a d s) (linePoint a d t) = |t - s| * dirNorm d := by
  unfold wpDist linePoint dirNorm
  have h1 : (a.x + t * d.x - (a.x + s * d.x)) ^ 2 +
      (a.y + t * d.y - (a.y + s * d.y)) ^ 2 +
      (a.z + t * d.z - (a.z + s * d.z)) ^ 2 =
      (t - s) ^ 2 * (d.x ^ 2 + d.y ^ 2 + d.z ^ 2) := by ring
  rw [h1, Real.sqrt_mul (sq_nonneg _), Real.sqrt_sq_eq_abs]

/-- The head of a sorted list bounds its last element. -/
theorem sorted_head_le_getLastD :
    ∀ (ts : List ℝ) (t0 : ℝ), (t0 :: ts).Sorted (· ≤ ·) →
      t0 ≤ ts.getLastD t0 := by
  intro ts
  induction ts with
  | nil => intro t0 _; exact le_refl t0
  | cons t1 ts ih =>
      intro t0 hs
      have h01 : t0 ≤ t1 :=
        (List.sorted_cons.mp hs).1 t1 (List.mem_cons_self _ _)
      have h1 : t1 ≤ ts.getLastD t1 := ih t1 (List.sorted_cons.mp hs).2
      rw [List.getLastD_cons]
      exact le_trans h01 h1

/-- `getLastD` commutes with `map` when the default is the image of the
fallback. -/
theorem getLastD_map (f : ℝ → Waypoint) :
    ∀ (ts : List ℝ) (t0 : ℝ), (ts.map f).getLastD (f t0) = f (ts.getLastD t0) := by
  intro ts
  induction ts with
  | nil => intro t0; rfl
  | cons t1 ts ih =>
      intro t0
      rw [List.map_cons, List.getLastD_cons, List.getLastD_cons, ih t1]

/-- Telescoping: the consecutive-distance sum of a monotone line
parameterization is the parameter span times the direction norm. -/
theorem consecDistSum_line (a d : Waypoint) :
    ∀ (ts : List ℝ) (t0 : ℝ), (t0 :: ts).Sorted (· ≤ ·) →
      consecDistSum ((t0 :: ts).map (linePoint a d)) =
        (ts.getLastD t0 - t0) * dirNorm d := by
  intro ts
  induction ts with
  | nil =>
      intro t0 _
      simp [consecDistSum]
  | cons t1 ts ih =>
      intro t0 hs
      have h01 : t0 ≤ t1 :=
        (List.sorted_cons.mp hs).1 t1 (List.mem_cons_self _ _)
      have hs1 : (t1 :: ts).Sorted (· ≤ ·) := (List.sorted_cons.mp hs).2
      have h1last : t1 ≤ ts.getLastD t1 := sorted_head_le_getLastD ts t1 hs1
      simp only [List.map_cons, consecDistSum]
      rw [← List.map_cons (linePoint a d) t1 ts, ih t1 hs1,
        wpDist_linePoint, List.getLastD_cons,
        abs_of_nonneg (by linarith : (0:ℝ) ≤ t1 - t0)]
      ring

/-- C6: `computePathEfficiency` returns 1 for fewer than 2 points, 0 when
the trajectory has at least 2 points and its path length is below the 1e-6
guard, the ratio straight-line / path-length otherwise; and a perfectly
straight trajectory (a monotone line parameterization whose path length
clears the guard) has efficiency exactly 1. -/
theorem computePathEfficiency_spec :
    (∀ t : Trajectory, t.length < 2 →
      TrajMetrics.computePathEfficiency t = 1) ∧
    (∀ t : Trajectory, 2 ≤ t.length →
      TrajMetrics.computePathLength t < eps6 →
      TrajMetrics.computePathEfficiency t = 0) ∧
    (∀ t : Trajectory, 2 ≤ t.length →
      ¬ TrajMetrics.computePathLength t < eps6 →
      TrajMetrics.computePathEfficiency t =
        TrajMetrics.computeStraightLineDistance t /
          TrajMetrics.computePathLength t) ∧
    (∀ (a d : Waypoint) (ts : List ℝ), ts.Sorted (· ≤ ·) → 2 ≤ ts.length →
      ¬ TrajMetrics.computePathLength (ts.map (linePoint a d)) < eps6 →
      TrajMetrics.computePathEfficiency (ts.map (linePoint a d)) = 1) := by
  have hcase1 : ∀ t : Trajectory, t.length < 2 →
      TrajMetrics.computePathEfficiency t = 1 := by
    intro t h
    unfold TrajMetrics.computePathEfficiency
    rw [if_pos h]
  have hcase2 : ∀ t : Trajectory, 2 ≤ t.length →
      TrajMetrics.computePathLength t < eps6 →
      TrajMetrics.computePathEfficiency t = 0 := by
    intro t h hl
    unfold TrajMetrics.computePathEfficiency
    rw [if_neg (by omega), if_pos hl]
  have hcase3 : ∀ t : Trajectory, 2 ≤ t.length →
      ¬ TrajMetrics.computePathLength t < eps6 →
      TrajMetrics.computePathEfficiency t =
        TrajMetrics.computeStraightLineDistance t /
          TrajMetrics.computePathLength t := by
    intro t h hl
    unfold TrajMetrics.computePathEfficiency
    rw [if_neg (by omega), if_neg hl]
  refine ⟨hcase1, hcase2, hcase3, ?_⟩
  intro a d ts hsorted hlen hguard
  obtain ⟨t0, ts', rfl⟩ : ∃ t0 ts', ts = t0 :: ts' := by
    cases ts with
    | nil => simp at hlen
    | cons x xs => exact ⟨x, xs, rfl⟩
  · have hmap_len : 2 ≤ ((t0 :: ts').map (linePoint a d)).length := by
      rw [List.length_map]
      exact hlen
    have hpath : TrajMetrics.computePathLength
        ((t0 :: ts').map (linePoint a d)) =
        (ts'.getLastD t0 - t0) * dirNorm d := by
      unfold TrajMetrics.computePathLength
      rw [if_neg (by omega), consecDistSum_line a d ts' t0 hsorted]
    have hstraight : TrajMetrics.computeStraightLineDistance
        ((t0 :: ts').map (linePoint a d)) =
        (ts'.getLastD t0 - t0) * dirNorm d := by
      unfold TrajMetrics.computeStraightLineDistance
      rw [if_neg (by omega)]
      have hhead : ((t0 :: ts').map (linePoint a d)).headD wp0 =
          linePoint a d t0 := rfl
      have hlast : ((t0 :: ts').map (linePoint a d)).getLastD wp0 =
          linePoint a d (ts'.getLastD t0) := by
        rw [List.map_cons, List.getLastD_cons, getLastD_map]
      rw [hhead, hlast, wpDist_linePoint,
        abs_of_nonneg (by
          have := sorted_head_le_getLastD ts' t0 hsorted
          linarith)]
    have hne : TrajMetrics.computePathLength
        ((t0 :: ts').map (linePoint a d)) ≠ 0 := by
      intro h0
      apply hguard
      rw [h0]
      unfold eps6
      norm_num
    rw [hcase3 _ hmap_len hguard, hstraight, ← hpath, div_self hne]

/-- Witness for C6: the straight trajectory through (0,0,0), (3,4,0),
(6,8,0) has path efficiency exactly 1. -/
theorem computePathEfficiency_spec_witness :
    TrajMetrics.computePathEfficiency
      (([0, 1, 2] : List ℝ).map (linePoint wp0 ⟨3, 4, 0⟩)) = 1 := by
  have hnorm : dirNorm ⟨3, 4, 0⟩ = 5 := by
    unfold dirNorm
    rw [show ((3:ℝ) ^ 2 + 4 ^ 2 + 0 ^ 2) = 5 ^ 2 by norm_num,
      Real.sqrt_sq (by norm_num : (0:ℝ) ≤ 5)]
  have hsorted : ([0, 1, 2] : List ℝ).Sorted (· ≤ ·) := by
    simp [List.sorted_cons]
  refine computePathEfficiency_spec.2.2.2 wp0 ⟨3, 4, 0⟩ [0, 1, 2] hsorted
    (by norm_num) ?_
  have hpath : TrajMetrics.computePathLength
      (([0, 1, 2] : List ℝ).map (linePoint wp0 ⟨3, 4, 0⟩)) = 10 := by
    unfold TrajMetrics.computePathLength
    rw [if_neg (by norm_num),
      consecDistSum_line wp0 ⟨3, 4, 0⟩ [1, 2] 0 hsorted, hnorm]
    norm_num
  rw [hpath]
  unfold eps6
  norm_num

/-- The inner loop of `computeDiversity` (trajectory_metrics.cpp lines
242-253) for one pair, in the case where the division is defined: the mean
per-index waypoint distance over the shorter of the two lengths. -/
def meanIndexDist (t1 t2 : Trajectory) : ℝ :=
  (((List.range (min t1.length t2.length)).map fun k =>
    wpDist (t1.getD k wp0) (t2.getD k wp0)).sum) /
    ((min t1.length t2.length : ℕ) : ℝ)

namespace TrajMetrics

/-- One pair's contribution in `computeDiversity`: the accumulated distance
divided by `min_len` with NO guard on `min_len` (trajectory_metrics.cpp
line 253) — when `min_len = 0` the float division is `0.0f / 0`, an IEEE
NaN, modelled as `none`. -/
def pairMeanDist (t1 t2 : Trajectory) : Option ℝ :=
  if min t1.length t2.length = 0 then none else some (meanIndexDist t1 t2)

/-- The double loop `for i { for j in i+1.. }` enumerating unordered pairs
in source order. -/
def pairsAfter : List Trajectory → List (Trajectory × Trajectory)
  | [] => []
  | x :: xs => (xs.map fun y => (x, y)) ++ pairsAfter xs

/-- The `total_distance` accumulation: a NaN contribution poisons the
accumulated float, modelled by `Option` propagation. -/
def collectDists : List (Trajectory × Trajectory) → Option (List ℝ)
  | [] => some []
  | p :: ps =>
    match pairMeanDist p.1 p.2, collectDists ps with
    | some d, some ds => some (d :: ds)
    | _, _ => none

/-- trajectory_metrics.cpp `computeDiversity` (lines 231-260): returns 0
for fewer than 2 trajectories, otherwise accumulates every pair's mean
per-index distance (the `n_pairs > 0` ternary guards the final average). -/
def computeDiversity (ts : List Trajectory) : Option ℝ :=
  if ts.length < 2 then some 0
  else
    match collectDists (pairsAfter ts) with
    | none => none
    | some ds =>
        some (if 0 < (pairsAfter ts).length then
          ds.sum / ((pairsAfter ts).length : ℝ) else 0)

end TrajMetrics

/-- The spec's diversity formula, stated independently of the loop
structure: the average, over all unordered pairs (2-element sublists), of
the mean per-index waypoint distance over the shorter length; the number of
unordered pairs is `n choose 2`. -/
def diversitySpec (ts : List Trajectory) : ℝ :=
  (((ts.sublistsLen 2).map fun l =>
    meanIndexDist (l.getD 0 []) (l.getD 1 [])).sum) /
    ((ts.length.choose 2 : ℕ) : ℝ)

/-- C3: the claim that every Metrics Engine division is epsilon-guarded —
including the per-pair division by the shorter trajectory length inside
`computeDiversity` — fails: for a set containing an empty trajectory the
code divides the accumulated distance 0 by `min_len = 0`, producing a NaN
(modelled `none`) instead of a defined default. -/
theorem computeDiversity_empty_member_nan :
    TrajMetrics.computeDiversity [([] : Trajectory), [wp0]] = none := rfl

/-- Every pair enumerated by the double loop consists of members of the
input list. -/
theorem pairsAfter_mem (ts : List Trajectory)
    (p : Trajectory × Trajectory) (hp : p ∈ TrajMetrics.pairsAfter ts) :
    p.1 ∈ ts ∧ p.2 ∈ ts := by
  induction ts with
  | nil => simp [TrajMetrics.pairsAfter] at hp
  | cons x xs ih =>
      simp only [TrajMetrics.pairsAfter, List.mem_append, List.mem_map] at hp
      rcases hp with ⟨y, hy, rfl⟩ | hp
      · exact ⟨List.mem_cons_self x xs, List.mem_cons_of_mem x hy⟩
      · exact ⟨List.mem_cons_of_mem x (ih hp).1,
          List.mem_cons_of_mem x (ih hp).2⟩

/-- The double loop visits exactly `n choose 2` pairs. -/
theorem pairsAfter_length (ts : List Trajectory) :
    (TrajMetrics.pairsAfter ts).length = ts.length.choose 2 := by
  induction ts with
  | nil => rfl
  | cons x xs ih =>
      simp only [TrajMetrics.pairsAfter, List.length_append, List.length_map,
        ih, List.length_cons]
      rw [Nat.choose_succ_succ, Nat.choose_one_right, Nat.add_comm]

/-- When every enumerated pair has a positive shorter length, the
accumulation is NaN-free and collects exactly the per-pair means. -/
theorem collectDists_all_some (ps : List (Trajectory × Trajectory))
    (h : ∀ p ∈ ps, min p.1.length p.2.length ≠ 0) :
    TrajMetrics.collectDists ps =
      some (ps.map fun p => meanIndexDist p.1 p.2) := by
  induction ps with
  | nil => rfl
  | cons p ps ih =>
      have hp := h p (List.mem_cons_self p ps)
      have hrest := ih fun q hq => h q (List.mem_cons_of_mem p hq)
      simp only [TrajMetrics.collectDists, TrajMetrics.pairMeanDist,
        if_neg hp, hrest, List.map_cons]

/-- The double-loop pair sum equals the sum over 2-element sublists. -/
theorem pairsAfter_sum_eq_sublistsLen (ts : List Trajectory) :
    ((TrajMetrics.pairsAfter ts).map fun p => meanIndexDist p.1 p.2).sum =
      ((ts.sublistsLen 2).map fun l =>
        meanIndexDist (l.getD 0 []) (l.getD 1 [])).sum := by
  induction ts with
  | nil => rfl
  | cons x xs ih =>
      rw [List.sublistsLen_succ_cons, List.map_append, List.sum_append]
      simp only [TrajMetrics.pairsAfter, List.map_append, List.sum_append, ih]
      rw [add_comm]
      congr 1
      rw [List.sublistsLen_one, List.map_map, List.map_map, List.map_map,
        (List.Perm.map _ xs.reverse_perm).sum_eq]
      refine congrArg List.sum (List.map_congr_left ?_)
      intro y _
      rfl

/-- C7 counterexample: for the set of two identical EMPTY trajectories the
code does not return 0 — the per-pair division by the shorter length 0 is a
`0.0f / 0` NaN, so the result is undefined (`none`), refuting the claim
that every set of two identical trajectories has diversity 0. -/
theorem computeDiversity_identical_empty_counterexample :
    TrajMetrics.computeDiversity [([] : Trajectory), []] = none := rfl

/-- C7 amended: `computeDiversity` returns 0 for fewer than 2 trajectories;
for at least 2 trajectories all nonempty it returns the average over all
unordered pairs of the mean per-index waypoint distance over the shorter of
the two lengths; and it returns 0 for a set of two identical NONEMPTY
trajectories (a pair of empty ones divides by zero, see the
counterexample). -/
theorem computeDiversity_amended (ts : List Trajectory) (t : Trajectory) :
    (ts.length < 2 → TrajMetrics.computeDiversity ts = some 0) ∧
    (2 ≤ ts.length → (∀ u ∈ ts, u ≠ []) →
      TrajMetrics.computeDiversity ts = some (diversitySpec ts)) ∧
    (t ≠ [] → TrajMetrics.computeDiversity [t, t] = some 0) := by
  refine ⟨?_, ?_, ?_⟩
  · intro h
    unfold TrajMetrics.computeDiversity
    rw [if_pos h]
  · intro hlen hne
    have hpairs : ∀ p ∈ TrajMetrics.pairsAfter ts,
        min p.1.length p.2.length ≠ 0 := by
      intro p hp
      obtain ⟨h1, h2⟩ := pairsAfter_mem ts p hp
      have n1 := hne p.1 h1
      have n2 := hne p.2 h2
      simp only [ne_eq, Nat.min_eq_zero_iff, List.length_eq_zero]
      tauto
    have hcount : 0 < (TrajMetrics.pairsAfter ts).length := by
      rw [pairsAfter_length]
      exact Nat.choose_pos hlen
    unfold TrajMetrics.computeDiversity
    rw [if_neg (by omega), collectDists_all_some _ hpairs]
    simp only [if_pos hcount]
    rw [pairsAfter_sum_eq_sublistsLen, pairsAfter_length]
    rfl
  · intro ht
    have hmin : min t.length t.length ≠ 0 := by
      simp only [ne_eq, Nat.min_eq_zero_iff, List.length_eq_zero]
      tauto
    have hself : meanIndexDist t t = 0 := by
      unfold meanIndexDist
      have hz : ((List.range (min t.length t.length)).map fun k =>
          wpDist (t.getD k wp0) (t.getD k wp0)).sum = 0 := by
        apply List.sum_eq_zero
        intro v hv
        rw [List.mem_map] at hv
        obtain ⟨k, _, rfl⟩ := hv
        unfold wpDist
        simp
      rw [hz, zero_div]
    have hall : ∀ p ∈ [(t, t)],
        min (List.length (Prod.fst p)) (List.length (Prod.snd p)) ≠ 0 := by
      intro p hp
      rw [List.mem_singleton] at hp
      subst hp
      exact hmin
    have hpa : TrajMetrics.pairsAfter [t, t] = [(t, t)] := by
      simp [TrajMetrics.pairsAfter]
    unfold TrajMetrics.computeDiversity
    rw [if_neg (by simp), hpa, collectDists_all_some [(t, t)] hall]
    simp [hself]

/-- Witness for C7's amended theorem: two identical one-point trajectories
have diversity 0. -/
theorem computeDiversity_amended_witness :
    TrajMetrics.computeDiversity [[wp0], [wp0]] = some 0 :=
  (computeDiversity_amended [[wp0], [wp0]] [wp0]).2.2 (by simp)

/-- trajectory_inference.h `struct GeneratorConfig` (lines 49-58). -/
structure GeneratorConfig where
  model_path : String
  latent_dim : ℕ
  seq_len : ℕ
  num_threads : ℕ
  use_gpu : Bool

/-- GeneratorConfig default member initialisers: latent_dim 64, seq_len 50,
num_threads 4, use_gpu false. -/
def defaultConfig : GeneratorConfig :=
  ⟨"", 64, 50, 4, false⟩

/-- `unsigned int` modulus for the rng_state_ member. -/
def UINT_MOD : ℕ := 4294967296

/-- State of a constructed `TrajectoryGenerator` (trajectory_inference.h
lines 137-151): configuration, stored normalization params, whether
`session_` is non-null (`isReady`), and the `unsigned int rng_state_`
member. -/
structure GenState where
  config : GeneratorConfig
  norm_params : NormalizationParams
  session_loaded : Bool
  rng_state : ℕ

namespace TrajectoryGenerator

/-- trajectory_inference.cpp `TrajectoryGenerator::TrajectoryGenerator`
(lines 64-110) on its successful path (a model-load failure throws and no
object exists): norm_params start at their default constructor values, the
session is loaded, and `rng_state_` is initialised to
`static_cast<unsigned int>(std::time(nullptr))` — the wall-clock time,
reduced mod 2^32, with no other entropy input. -/
def mk (config : GeneratorConfig) (time : ℕ) : GenState :=
  ⟨config, defaultNormParams, true, time % UINT_MOD⟩

/-- trajectory_inference.cpp `TrajectoryGenerator::sampleLatent`
(lines 147-160): constructs `std::mt19937 gen(rng_state_++)`, so the seed
used is the pre-increment value and the member wraps as an unsigned int.
The mt19937 / normal_distribution draws themselves are external std-library
machinery abstracted as a function of this seed by the callers below; this
definition returns the seed used and the updated state. -/
def sampleLatentSeed (s : GenState) : ℕ × GenState :=
  (s.rng_state, { s with rng_state := (s.rng_state + 1) % UINT_MOD })

/-- State after `k` calls to sampleLatent. -/
def stepN (s : GenState) : ℕ → GenState
  | 0 => s
  | k + 1 => (sampleLatentSeed (stepN s k)).2

/-- Seed consumed by the `(k+1)`-th sampleLatent call. -/
def nthSeed (s : GenState) (k : ℕ) : ℕ :=
  (sampleLatentSeed (stepN s k)).1

/-- trajectory_inference.cpp `TrajectoryGenerator::runInference`
(lines 162-235): normalizes start and end, invokes the external ONNX model
(abstracted as a function from the latent vector and the two normalized
endpoints to the normalized output sequence; the code reads `seq_len` from
the output tensor's shape), and denormalizes each output element. -/
def runInference (s : GenState) (model : List ℝ → Vec3 → Vec3 → List Vec3)
    (latent : List ℝ) (start_wp end_wp : Waypoint) : Trajectory :=
  let start_norm := normalize s.norm_params start_wp
  let end_norm := normalize s.norm_params end_wp
  (model latent start_norm end_norm).map (denormalize s.norm_params)

/-- trajectory_inference.cpp `TrajectoryGenerator::generate`
(lines 237-247): throws when not ready, otherwise samples a latent vector
(`draw` abstracts the mt19937 + normal_distribution draw as a function of
the consumed seed and the latent dimension) and runs inference. -/
def generate (s : GenState) (model : List ℝ → Vec3 → Vec3 → List Vec3)
    (draw : ℕ → ℕ → List ℝ) (start_wp end_wp : Waypoint) :
    Except Unit (Trajectory × GenState) :=
  if s.session_loaded then
    let seed_state := sampleLatentSeed s
    let latent := draw seed_state.1 s.config.latent_dim
    .ok (runInference seed_state.2 model latent start_wp end_wp, seed_state.2)
  else .error ()

end TrajectoryGenerator

/-- Iterating sampleLatent from a constructed generator: the state after k
calls holds `(time + k) mod 2^32`. -/
theorem stepN_rng_state (c : GeneratorConfig) (t k : ℕ) :
    (TrajectoryGenerator.stepN (TrajectoryGenerator.mk c t) k).rng_state =
      (t + k) % UINT_MOD := by
  induction k with
  | zero => simp [TrajectoryGenerator.stepN, TrajectoryGenerator.mk]
  | succ n ih =>
      simp only [TrajectoryGenerator.stepN, TrajectoryGenerator.sampleLatentSeed,
        ih, Nat.mod_add_mod]
      rw [Nat.add_assoc]

/-- C5: when the generator is ready and the external model satisfies its
inference contract (its output sequence has the configured length for every
input), `generate` succeeds and the returned trajectory has length exactly
`config.seq_len` — no partial result. -/
theorem generate_seq_len (s : GenState)
    (model : List ℝ → Vec3 → Vec3 → List Vec3) (draw : ℕ → ℕ → List ℝ)
    (start_wp end_wp : Waypoint) (hready : s.session_loaded = true)
    (hmodel : ∀ lat sn en, (model lat sn en).length = s.config.seq_len) :
    ∃ traj s', TrajectoryGenerator.generate s model draw start_wp end_wp =
        .ok (traj, s') ∧ traj.length = s.config.seq_len := by
  refine ⟨TrajectoryGenerator.runInference
      (TrajectoryGenerator.sampleLatentSeed s).2 model
      (draw (TrajectoryGenerator.sampleLatentSeed s).1 s.config.latent_dim)
      start_wp end_wp,
    (TrajectoryGenerator.sampleLatentSeed s).2, ?_, ?_⟩
  · unfold TrajectoryGenerator.generate
    rw [hready]
    rfl
  · simp only [TrajectoryGenerator.runInference, List.length_map]
    exact hmodel _ _ _

/-- Witness for C5: a ready generator with the default config and a stub
model returning 50 zero points yields a trajectory of length 50. -/
theorem generate_seq_len_witness :
    ∃ traj s', TrajectoryGenerator.generate
        (TrajectoryGenerator.mk defaultConfig 1700000000)
        (fun _ _ _ => List.replicate 50 ⟨0, 0, 0⟩) (fun _ _ => [])
        wp0 ⟨800, 600, 200⟩ = .ok (traj, s') ∧ traj.length = 50 :=
  generate_seq_len (TrajectoryGenerator.mk defaultConfig 1700000000)
    (fun _ _ _ => List.replicate 50 ⟨0, 0, 0⟩) (fun _ _ => [])
    wp0 ⟨800, 600, 200⟩ rfl (fun _ _ _ => List.length_replicate 50 _)

/-- C8 counterexample: the sampler's random state is not explicitly
seedable and wall-clock time is its only entropy source — two generators
constructed from different configurations at the same wall-clock time have
identical rng states and consume identical seed sequences, and no
constructor input other than the time influences the state. -/
theorem sampler_time_only_counterexample :
    ({ defaultConfig with latent_dim := 32 } : GeneratorConfig) ≠
      defaultConfig ∧
    (TrajectoryGenerator.mk { defaultConfig with latent_dim := 32 }
        1700000000).rng_state =
      (TrajectoryGenerator.mk defaultConfig 1700000000).rng_state ∧
    TrajectoryGenerator.nthSeed
        (TrajectoryGenerator.mk { defaultConfig with latent_dim := 32 }
          1700000000) 3 =
      TrajectoryGenerator.nthSeed
        (TrajectoryGenerator.mk defaultConfig 1700000000) 3 := by
  refine ⟨?_, rfl, rfl⟩
  intro h
  have := congrArg GeneratorConfig.latent_dim h
  simp [defaultConfig] at this

/-- C8 amended: each latent-sampling call uses a distinct underlying random
state — the `(k+1)`-th call consumes seed `(time + k) mod 2^32`, so any two
calls fewer than 2^32 apart use different seeds — but the sampler is not
explicitly seedable: the constructed state is determined by the wall-clock
time alone, identical for any two configurations. -/
theorem sampler_seeding_amended (c1 c2 : GeneratorConfig) (t j k : ℕ)
    (hjk : j < k) (hk : k - j < UINT_MOD) :
    (TrajectoryGenerator.mk c1 t).rng_state =
      (TrajectoryGenerator.mk c2 t).rng_state ∧
    TrajectoryGenerator.nthSeed (TrajectoryGenerator.mk c1 t) k =
      (t + k) % UINT_MOD ∧
    TrajectoryGenerator.nthSeed (TrajectoryGenerator.mk c1 t) j ≠
      TrajectoryGenerator.nthSeed (TrajectoryGenerator.mk c1 t) k := by
  have hseed : ∀ m, TrajectoryGenerator.nthSeed
      (TrajectoryGenerator.mk c1 t) m = (t + m) % UINT_MOD := by
    intro m
    unfold TrajectoryGenerator.nthSeed TrajectoryGenerator.sampleLatentSeed
    exact stepN_rng_state c1 t m
  refine ⟨rfl, hseed k, ?_⟩
  rw [hseed j, hseed k]
  intro heq
  have hle : t + j ≤ t + k := by omega
  have hdvd : UINT_MOD ∣ (t + k) - (t + j) :=
    (Nat.modEq_iff_dvd' hle).mp heq
  rw [Nat.add_sub_add_left] at hdvd
  have hpos : 0 < k - j := by omega
  have := Nat.le_of_dvd hpos hdvd
  omega

/-- Witness for C8's amended theorem at time 1000, calls 0 and 1. -/
theorem sampler_seeding_amended_witness :
    TrajectoryGenerator.nthSeed
        (TrajectoryGenerator.mk defaultConfig 1000) 0 ≠
      TrajectoryGenerator.nthSeed
        (TrajectoryGenerator.mk defaultConfig 1000) 1 :=
  (sampler_seeding_amended defaultConfig defaultConfig 1000 0 1
    (by norm_num) (by norm_num [UINT_MOD])).2.2

/-- C9: for the empty trajectory, `evaluateTrajectory` returns the
default-constructed metrics bundle whose eleven fields are all 0.0 — in
particular its `smoothness_score` field is 0 — while the standalone
`computeSmoothnessScore` applied to the empty trajectory returns 1. -/
theorem evaluateTrajectory_empty_default (e : Waypoint) :
    TrajMetrics.evaluateTrajectory [] e = defaultMetrics ∧
    defaultMetrics = ⟨0, 0, 0, 0, 0, 0, 0, 0, 0, 0, 0⟩ ∧
    (TrajMetrics.evaluateTrajectory [] e).smoothness_score = 0 ∧
    TrajMetrics.computeSmoothnessScore [] = 1 := by
  refine ⟨rfl, rfl, rfl, ?_⟩
  have h : TrajMetrics.computeAverageCurvature [] = 0 := rfl
  unfold TrajMetrics.computeSmoothnessScore
  rw [h]
  norm_num
